import Mathlib

/-!
Verification of the rgb-std consignment core: seal model, consignment
container, concealment (finalize), revelation (reveal_seals), the endpoint
guard and the chain iterator, shallowly embedded from the Rust sources
(src/src/consignment.rs, src/src/iter.rs, src/std/src/containers/seal.rs).

Types from collaborating crates (rgb-core node graph types, bp seal types,
commitment hashes) that are not part of the given sources are modelled from
the specification; every such definition is marked in its doc comment.
-/

namespace RgbStd

/-- Transaction id, modelled as an abstract numeric identifier. -/
abbrev Txid := Nat

/-- Commitment-derived node identifier.  Modelled from the spec: a
deterministic function of the node encoded content, represented here as the
encoded byte list itself with a domain marker. -/
abbrev NodeId := List Nat

/-- Commitment-derived bundle identifier, modelled like NodeId. -/
abbrev BundleId := List Nat

/-- Concealed (secret) seal: the canonical commitment hash of a seal.
Modelled from the spec: a pure deterministic commitment over the encoded
seal content, represented as the tagged encoding itself. -/
abbrev SecretSeal := List Nat

/-- Owned-right type tag. -/
abbrev OwnedRightType := Nat

/-- Transition type tag drawn from the schema. -/
abbrev TransitionType := Nat

/-- Schema is opaque to the core; modelled as its encoded bytes. -/
abbrev Schema := List Nat

/-- Pointer to the transaction a graph seal lives in: either the (yet
unknown) witness transaction of the node, or an explicit txid.  Modelled
from the spec (bp::seals::txout::TxPtr). -/
inductive TxPtr where
  | witnessTx : TxPtr
  | txid (t : Txid) : TxPtr
deriving DecidableEq

/-- Encoding of a TxPtr used inside seal commitments. -/
def TxPtr.encode : TxPtr → List Nat
  | .witnessTx => [0]
  | .txid t => [1, t]

/-- Graph-level seal (rgb::GraphSeal): close method, transaction pointer,
output index and blinding factor.  Modelled from the spec. -/
structure GraphSeal where
  method : Nat
  txid : TxPtr
  vout : Nat
  blinding : Nat
deriving DecidableEq

/-- Deterministic encoding of a graph seal. -/
def GraphSeal.encode (g : GraphSeal) : List Nat :=
  g.method :: (g.txid.encode ++ [g.vout, g.blinding])

/-- Concealment of a graph seal into a SecretSeal.  Modelled from the spec:
the commitment function is pure and deterministic over the encoded input;
represented as the tagged encoding. -/
def GraphSeal.conceal (g : GraphSeal) : SecretSeal :=
  2 :: g.encode

/-- Seal definition re-using the witness transaction id of the node
(src/std/src/containers/seal.rs, struct VoutSeal). -/
structure VoutSeal where
  method : Nat
  vout : Nat
  blinding : Nat
deriving DecidableEq

/-- VoutSeal::with: reconstructs a seal from method, output number and
blinding factor (seal.rs lines 100-106). -/
def VoutSeal.with (method vout blinding : Nat) : VoutSeal :=
  { method := method, vout := vout, blinding := blinding }

/-- From VoutSeal for GraphSeal (seal.rs lines 109-111): a VoutSeal always
converts to a witness-transaction-relative graph seal. -/
def GraphSeal.fromVout (s : VoutSeal) : GraphSeal :=
  { method := s.method, txid := .witnessTx, vout := s.vout, blinding := s.blinding }

/-- Terminal seal (seal.rs lines 131-140): either an external transaction
output in concealed form, or a seal within the witness transaction. -/
inductive TerminalSeal where
  | concealedUtxo (s : SecretSeal) : TerminalSeal
  | witnessVout (v : VoutSeal) : TerminalSeal
deriving DecidableEq

/-- From GraphSeal for TerminalSeal (seal.rs lines 142-151): a seal with an
explicit txid is concealed, a witness-relative seal keeps its vout form. -/
def TerminalSeal.fromGraph (g : GraphSeal) : TerminalSeal :=
  match g.txid with
  | .witnessTx => .witnessVout (VoutSeal.with g.method g.vout g.blinding)
  | .txid _ => .concealedUtxo g.conceal

/-- Conceal for TerminalSeal (seal.rs lines 161-170). -/
def TerminalSeal.conceal : TerminalSeal → SecretSeal
  | .concealedUtxo hash => hash
  | .witnessVout v => (GraphSeal.fromVout v).conceal

/-- Text-parsing error, opaque to the core. -/
abbrev ParseError := Nat

/-- FromStr for TerminalSeal (seal.rs lines 181-189): first try the
concealed-hash grammar, and only on its failure the revealed graph-seal
grammar.  The two collaborating grammars are external to the sources and
passed as parameters. -/
def TerminalSeal.from_str
    (secretSealFromStr : String → Except ParseError SecretSeal)
    (graphSealFromStr : String → Except ParseError GraphSeal)
    (s : String) : Except ParseError TerminalSeal :=
  match secretSealFromStr s with
  | .ok hash => .ok (.concealedUtxo hash)
  | .error _ =>
    match graphSealFromStr s with
    | .ok g => .ok (TerminalSeal.fromGraph g)
    | .error e => .error e

/-- Maps a count-returning transformation over a list, mirroring the Rust
iterator map closures of finalize and reveal_seals that accumulate a usize
count while rebuilding the collection. -/
def mapCount {α β : Type} (f : α → β × Nat) : List α → List β × Nat
  | [] => ([], 0)
  | a :: rest =>
    let p := f a
    let q := mapCount f rest
    (p.1 :: q.1, p.2 + q.2)

/-- Seal reference carried by an owned-right assignment: either already
concealed (only the commitment hash is known) or revealed.  Modelled from
the spec seal model. -/
inductive SealRef where
  | concealed (s : SecretSeal) : SealRef
  | revealed (g : GraphSeal) : SealRef
deriving DecidableEq

/-- Canonical concealed form of an assignment seal reference. -/
def SealRef.commitConceal : SealRef → SecretSeal
  | .concealed s => s
  | .revealed g => g.conceal

/-- Encoding of a seal reference. -/
def SealRef.encode : SealRef → List Nat
  | .concealed s => 0 :: s
  | .revealed g => 1 :: g.encode

/-- State payload of an assignment: concealed commitment or revealed data.
Modelled from the spec. -/
inductive StateRef where
  | concealed (c : List Nat) : StateRef
  | revealed (d : List Nat) : StateRef
deriving DecidableEq

/-- Encoding of a state payload. -/
def StateRef.encode : StateRef → List Nat
  | .concealed c => 0 :: c
  | .revealed d => 1 :: d

/-- Commitment to a revealed state payload.  Modelled from the spec:
concealment replaces plaintext with an opaque one-way commitment. -/
def stateCommitment (d : List Nat) : List Nat := 7 :: d

/-- One owned-right assignment: a seal reference plus a state payload.
Modelled from the spec node graph model. -/
structure Assignment where
  sealRef : SealRef
  state : StateRef
deriving DecidableEq

/-- Encoding of an assignment. -/
def Assignment.encode (a : Assignment) : List Nat :=
  a.sealRef.encode ++ a.state.encode

/-- Modelled from the spec: ConcealState::conceal_state_except at the
assignment level conceals a revealed state payload unless the assignment
seal concealment belongs to the excepted list, returning the number of
concealment operations performed (0 for already-concealed payloads). -/
def Assignment.concealStateExcept (seals : List SecretSeal) (a : Assignment) :
    Assignment × Nat :=
  match a.state with
  | .concealed _ => (a, 0)
  | .revealed d =>
    if a.sealRef.commitConceal ∈ seals then (a, 0)
    else ({ a with state := .concealed (stateCommitment d) }, 1)

/-- Modelled from the spec: ConcealSeals::conceal_seals at the assignment
level blinds a revealed seal whose concealment belongs to the given list,
counting the replacements it performs. -/
def Assignment.concealSealIn (seals : List SecretSeal) (a : Assignment) :
    Assignment × Nat :=
  match a.sealRef with
  | .concealed _ => (a, 0)
  | .revealed g =>
    if g.conceal ∈ seals then ({ a with sealRef := .concealed g.conceal }, 1)
    else (a, 0)

/-- Modelled from the spec revelation engine: replaces a concealed seal with
the first known revealed seal whose concealment matches; an assignment with
no matching known seal is left unchanged and never an error. -/
def Assignment.revealSeals (known : List GraphSeal) (a : Assignment) :
    Assignment × Nat :=
  match a.sealRef with
  | .revealed _ => (a, 0)
  | .concealed s =>
    match known.find? (fun k => decide (k.conceal = s)) with
    | some k => ({ a with sealRef := .revealed k }, 1)
    | none => (a, 0)

/-- Owned rights of a node: typed slots each holding assignments. -/
abbrev OwnedRights := List (OwnedRightType × List Assignment)

/-- Lifts assignment-level state concealment over all owned rights. -/
def concealStateExceptRights (seals : List SecretSeal) (rights : OwnedRights) :
    OwnedRights × Nat :=
  mapCount (fun r =>
    let p := mapCount (Assignment.concealStateExcept seals) r.2
    ((r.1, p.1), p.2)) rights

/-- Lifts assignment-level seal concealment over all owned rights. -/
def concealSealsRights (seals : List SecretSeal) (rights : OwnedRights) :
    OwnedRights × Nat :=
  mapCount (fun r =>
    let p := mapCount (Assignment.concealSealIn seals) r.2
    ((r.1, p.1), p.2)) rights

/-- Lifts assignment-level seal revelation over all owned rights. -/
def revealSealsRights (known : List GraphSeal) (rights : OwnedRights) :
    OwnedRights × Nat :=
  mapCount (fun r =>
    let p := mapCount (Assignment.revealSeals known) r.2
    ((r.1, p.1), p.2)) rights

/-- State transition node.  Modelled from the spec: a transition consumes
prior node outputs of given owned-right types and produces owned-right
assignments; it carries a schema transition type. -/
structure Transition where
  transition_type : TransitionType
  parents : List (OwnedRightType × NodeId)
  owned_rights : OwnedRights
deriving DecidableEq

/-- Deterministic encoding of a transition, standing in for its canonical
strict encoding. -/
def Transition.encode (t : Transition) : List Nat :=
  t.transition_type ::
    (t.parents.flatMap (fun p => p.1 :: p.2) ++
     t.owned_rights.flatMap (fun r => r.1 :: r.2.flatMap Assignment.encode))

/-- Modelled from the spec: NodeId is computed deterministically from the
committed node content. -/
def Transition.node_id (t : Transition) : NodeId := 3 :: t.encode

/-- Modelled from the spec graph model: parent outputs of the transition
having the requested owned-right type. -/
def Transition.parent_outputs_by_type (t : Transition) (ty : OwnedRightType) :
    List NodeId :=
  (t.parents.filter (fun p => decide (p.1 = ty))).map (fun p => p.2)

/-- Transition::conceal_state_except, modelled from the spec. -/
def Transition.conceal_state_except (seals : List SecretSeal) (t : Transition) :
    Transition × Nat :=
  let p := concealStateExceptRights seals t.owned_rights
  ({ t with owned_rights := p.1 }, p.2)

/-- Transition::conceal_seals, modelled from the spec. -/
def Transition.conceal_seals (seals : List SecretSeal) (t : Transition) :
    Transition × Nat :=
  let p := concealSealsRights seals t.owned_rights
  ({ t with owned_rights := p.1 }, p.2)

/-- State extension node.  Modelled from the spec: structurally similar to a
transition but without a witness transaction of its own. -/
structure Extension where
  content : List Nat
  owned_rights : OwnedRights
deriving DecidableEq

/-- Modelled from the spec: commitment-derived extension node id. -/
def Extension.node_id (e : Extension) : NodeId :=
  5 :: (e.content ++ e.owned_rights.flatMap (fun r => r.1 :: r.2.flatMap Assignment.encode))

/-- Extension::conceal_state_except, modelled from the spec: only state
concealment applies to extensions. -/
def Extension.conceal_state_except (seals : List SecretSeal) (e : Extension) :
    Extension × Nat :=
  let p := concealStateExceptRights seals e.owned_rights
  ({ e with owned_rights := p.1 }, p.2)

/-- Genesis node, opaque content.  Modelled from the spec. -/
structure Genesis where
  content : List Nat
deriving DecidableEq

/-- Modelled from the spec: commitment-derived genesis node id. -/
def Genesis.node_id (g : Genesis) : NodeId := 4 :: g.content

/-- Strict lexicographic order on encoded keys, used to model the ordering
of the Rust BTreeMap and BTreeSet collections. -/
def listLt : List Nat → List Nat → Bool
  | [], [] => false
  | [], _ :: _ => true
  | _ :: _, [] => false
  | a :: as, b :: bs => if a < b then true else if b < a then false else listLt as bs

/-- One entry of a transition bundle: a transition mapped to the set of
bundle input indices it consumes. -/
abbrev BundleEntry := Transition × List Nat

/-- Ordered insertion keyed by the transition encoding, replacing the entry
on an equal key: models BTreeMap::insert. -/
def bundleInsert (p : BundleEntry) : List BundleEntry → List BundleEntry
  | [] => [p]
  | q :: rest =>
    if listLt p.1.encode q.1.encode then p :: q :: rest
    else if listLt q.1.encode p.1.encode then q :: bundleInsert p rest
    else p :: rest

/-- Models collect::<BTreeMap<Transition, BTreeSet<u16>>>() over a sequence
of entries: sequential BTreeMap insertion, later entries replacing earlier
ones with an equal key. -/
def bundleCollect (l : List BundleEntry) : List BundleEntry :=
  l.foldl (fun acc e => bundleInsert e acc) []

/-- Transition bundle: an ordered mapping from each known transition to the
input set it consumes.  Modelled from the spec data model. -/
structure TransitionBundle where
  entries : List BundleEntry
deriving DecidableEq

/-- TransitionBundle::from(BTreeMap), modelled as BTreeMap collection. -/
def TransitionBundle.ofEntries (l : List BundleEntry) : TransitionBundle :=
  ⟨bundleCollect l⟩

/-- Known transitions of the bundle. -/
def TransitionBundle.known_transitions (b : TransitionBundle) : List Transition :=
  b.entries.map (fun e => e.1)

/-- Known node ids of the bundle, modelled from the spec. -/
def TransitionBundle.known_node_ids (b : TransitionBundle) : List NodeId :=
  b.entries.map (fun e => e.1.node_id)

/-- Modelled from the spec: BundleId is derived like NodeId but over the
bundle content. -/
def TransitionBundle.bundle_id (b : TransitionBundle) : BundleId :=
  6 :: b.entries.flatMap (fun e => e.1.encode ++ e.2)

/-- Anchor binding a bundle to one on-chain transaction.  Modelled from the
spec: the core only reads its txid; the Merkle proof stays opaque. -/
structure Anchor where
  txid : Txid
  proof : List Nat
deriving DecidableEq

/-- Seal endpoint declared by a consignment (rgb-core SealEndpoint).
Modelled from the spec: either a confidential seal of an external output, or
a witness-transaction output with blinding. -/
inductive SealEndpoint where
  | concealedUtxo (s : SecretSeal) : SealEndpoint
  | witnessVout (method vout blinding : Nat) : SealEndpoint
deriving DecidableEq

/-- SealEndpoint::commit_conceal, modelled from the spec: the canonical
concealed form of the endpoint seal. -/
def SealEndpoint.commit_conceal : SealEndpoint → SecretSeal
  | .concealedUtxo s => s
  | .witnessVout m v b =>
    GraphSeal.conceal { method := m, txid := .witnessTx, vout := v, blinding := b }

/-- Consistency errors signalled by graph queries (crate ConsistencyError).
Modelled from the spec error taxonomy. -/
inductive ConsistencyError where
  | notEndpoint (n : NodeId) : ConsistencyError
  | transitionAbsent (n : NodeId) : ConsistencyError
  | bundleIdAbsent (b : BundleId) : ConsistencyError
deriving DecidableEq

/-- The root consignment aggregate (consignment.rs lines 100-125). -/
structure FullConsignment where
  version : Nat
  schema : Schema
  genesis : Genesis
  endpoints : List (BundleId × SealEndpoint)
  anchored_bundles : List (Anchor × TransitionBundle)
  state_extensions : List Extension
deriving DecidableEq

/-- Ordered set insertion on encoded ids, models BTreeSet::insert. -/
def idSetInsert (x : List Nat) : List (List Nat) → List (List Nat)
  | [] => [x]
  | y :: rest =>
    if listLt x y then x :: y :: rest
    else if listLt y x then y :: idSetInsert x rest
    else y :: rest

/-- Models collect::<BTreeSet<_>>() over a sequence of encoded ids. -/
def idSetOf (l : List (List Nat)) : List (List Nat) :=
  l.foldl (fun acc x => idSetInsert x acc) []

/-- Modelled from the spec: GraphApi::bundle_by_id resolves a BundleId to
the bundle carried by the consignment, or a consistency error if absent. -/
def FullConsignment.bundle_by_id (c : FullConsignment) (id : BundleId) :
    Except ConsistencyError TransitionBundle :=
  match c.anchored_bundles.find? (fun ab => decide (ab.2.bundle_id = id)) with
  | some ab => .ok ab.2
  | none => .error (.bundleIdAbsent id)

/-- Modelled from the spec: GraphApi::transition_by_id finds the known
transition with the given node id anywhere in the anchored bundles. -/
def FullConsignment.transition_by_id (c : FullConsignment) (nid : NodeId) :
    Except ConsistencyError Transition :=
  match (c.anchored_bundles.flatMap (fun ab => ab.2.known_transitions)).find?
      (fun t => decide (t.node_id = nid)) with
  | some t => .ok t
  | none => .error (.transitionAbsent nid)

/-- Modelled from the spec: GraphApi::transition_witness_by_id returns the
known transition with the given id together with the txid of the anchor of
its bundle. -/
def FullConsignment.transition_witness_by_id (c : FullConsignment) (nid : NodeId) :
    Except ConsistencyError (Transition × Txid) :=
  match c.anchored_bundles.find?
      (fun ab => ab.2.known_node_ids.any (fun i => decide (i = nid))) with
  | some ab =>
    match ab.2.entries.find? (fun e => decide (e.1.node_id = nid)) with
    | some e => .ok (e.1, ab.1.txid)
    | none => .error (.transitionAbsent nid)
  | none => .error (.transitionAbsent nid)

/-- FullConsignment::txids (consignment.rs lines 174-180). -/
def FullConsignment.txids (c : FullConsignment) : List Txid :=
  (c.anchored_bundles.map (fun ab => ab.1.txid)).foldl
    (fun acc t => if t ∈ acc then acc else acc ++ [t]) []

/-- FullConsignment::node_ids (consignment.rs lines 182-192): genesis id,
every known transition id of every bundle, and every extension id. -/
def FullConsignment.node_ids (c : FullConsignment) : List NodeId :=
  idSetOf (c.genesis.node_id ::
    (c.anchored_bundles.flatMap (fun ab => ab.2.known_node_ids) ++
     c.state_extensions.map Extension.node_id))

/-- FullConsignment::endpoint_bundle_ids (consignment.rs lines 194-201). -/
def FullConsignment.endpoint_bundle_ids (c : FullConsignment) : List BundleId :=
  idSetOf (c.endpoints.map (fun p => p.1))

/-- FullConsignment::endpoint_bundles (consignment.rs lines 203-209):
resolves each endpoint bundle id, silently dropping ids whose resolution
fails via filter_map of Result::ok. -/
def FullConsignment.endpoint_bundles (c : FullConsignment) : List TransitionBundle :=
  c.endpoint_bundle_ids.filterMap (fun id => (c.bundle_by_id id).toOption)

/-- FullConsignment::endpoint_transition_by_id (consignment.rs lines
211-227), translated exactly as written: the error branch fires when the
node id is found among the known node ids of the endpoint bundles. -/
def FullConsignment.endpoint_transition_by_id (c : FullConsignment)
    (node_id : NodeId) : Except ConsistencyError Transition :=
  if (c.endpoints.filterMap (fun p => (c.bundle_by_id p.1).toOption)
      |>.flatMap TransitionBundle.known_node_ids).any
      (fun id => decide (id = node_id)) then
    .error (.notEndpoint node_id)
  else
    c.transition_by_id node_id

/-- The per-bundle transformation inside FullConsignment::finalize
(consignment.rs lines 279-289): each transition is state-concealed except
for the exposed endpoints, then seal-concealed for the removed endpoints,
and the entries are re-collected into a BTreeMap keyed by the transition. -/
def concealBundle (concealedEndpoints sealsToConceal : List SecretSeal)
    (b : TransitionBundle) : TransitionBundle × Nat :=
  let p := mapCount (fun (e : BundleEntry) =>
    let q1 := e.1.conceal_state_except concealedEndpoints
    let q2 := q1.1.conceal_seals sealsToConceal
    ((q2.1, e.2), q1.2 + q2.2)) b.entries
  (TransitionBundle.ofEntries p.1, p.2)

/-- FullConsignment::finalize (consignment.rs lines 250-303): keeps only the
endpoints of the expose set, conceals state except for exposed endpoints and
blinds the seals of removed endpoints across all bundles and extensions, and
returns the total concealment count. -/
def FullConsignment.finalize (c : FullConsignment) (expose : List SealEndpoint) :
    FullConsignment × Nat :=
  let concealed_endpoints := expose.map SealEndpoint.commit_conceal
  let removed_endpoints :=
    (c.endpoints.filter (fun p => decide (p.2 ∉ expose))).map (fun p => p.2)
  let endpoints := c.endpoints.filter (fun p => decide (p.2 ∈ expose))
  let seals_to_conceal := removed_endpoints.map SealEndpoint.commit_conceal
  let pb := mapCount (fun (ab : Anchor × TransitionBundle) =>
    let q := concealBundle concealed_endpoints seals_to_conceal ab.2
    ((ab.1, q.1), q.2)) c.anchored_bundles
  let pe := mapCount (Extension.conceal_state_except concealed_endpoints)
    c.state_extensions
  ({ c with endpoints := endpoints, anchored_bundles := pb.1,
            state_extensions := pe.1 },
   pb.2 + pe.2)

/-- FullConsignment::reveal_seals (consignment.rs lines 308-332): attaches
known revealed seals to matching concealed assignment seals across all
bundle transitions and extensions, returning the substitution count. -/
def FullConsignment.reveal_seals (c : FullConsignment) (known : List GraphSeal) :
    FullConsignment × Nat :=
  let pb := mapCount (fun (ab : Anchor × TransitionBundle) =>
    let q := mapCount (fun (e : BundleEntry) =>
      let r := revealSealsRights known e.1.owned_rights
      (({ e.1 with owned_rights := r.1 }, e.2), r.2)) ab.2.entries
    ((ab.1, TransitionBundle.ofEntries q.1), q.2)) c.anchored_bundles
  let pe := mapCount (fun (ext : Extension) =>
    let r := revealSealsRights known ext.owned_rights
    ({ ext with owned_rights := r.1 }, r.2)) c.state_extensions
  ({ c with anchored_bundles := pb.1, state_extensions := pe.1 },
   pb.2 + pe.2)

/-- Decode-time errors, modelled from the spec error taxonomy. -/
inductive DecodeError where
  | io : DecodeError
  | unsupportedDataStructure (msg : String) : DecodeError
deriving DecidableEq

/-- Decoder for the five consignment fields following the version byte.
The strict decoders of the field types live in collaborating crates and are
passed as a parameter. -/
abbrev FieldsDecoder :=
  List Nat → Except DecodeError
    (Schema × Genesis × List (BundleId × SealEndpoint) ×
     List (Anchor × TransitionBundle) × List Extension)

/-- StrictDecode for FullConsignment (consignment.rs lines 135-145): the
version byte is decoded first, the remaining fields follow, and any version
other than 0 is a fatal decode error. -/
def FullConsignment.strict_decode (decodeFields : FieldsDecoder) (d : List Nat) :
    Except DecodeError FullConsignment :=
  match d with
  | [] => .error .io
  | v :: rest =>
    match decodeFields rest with
    | .error e => .error e
    | .ok (schema, genesis, endpoints, bundles, exts) =>
      if v ≠ 0 then
        .error (.unsupportedDataStructure
          "Consignment versions above 0 are not supported")
      else
        .ok { version := v, schema := schema, genesis := genesis,
              endpoints := endpoints, anchored_bundles := bundles,
              state_extensions := exts }

/-- Chain iterator state (iter.rs lines 18-24). -/
structure ChainIter where
  consignment : FullConsignment
  connected_by : OwnedRightType
  next_item : Option (Transition × Txid)
  error : Option ConsistencyError

/-- ChainIter::is_err (iter.rs line 28). -/
def ChainIter.is_err (it : ChainIter) : Bool := it.error.isSome

/-- ChainIter::into_result (iter.rs lines 32-38). -/
def ChainIter.into_result (it : ChainIter) : Except ConsistencyError Unit :=
  match it.error with
  | some e => .error e
  | none => .ok ()

/-- Iterator::next for ChainIter (iter.rs lines 44-66), with the mutation of
the iterator made explicit: returns the yielded item (if any) along with the
successor iterator state. -/
def ChainIter.next (it : ChainIter) : Option (Transition × Txid) × ChainIter :=
  match it.next_item with
  | none => (none, it)
  | some item =>
    match (item.1.parent_outputs_by_type it.connected_by).head? with
    | none => (none, { it with next_item := none })
    | some output =>
      match it.consignment.transition_witness_by_id output with
      | .error err => (some item, { it with next_item := none, error := some err })
      | .ok ni => (some item, { it with next_item := some ni })

/-- Consignment::chain_iter (iter.rs lines 75-88): seeds the iterator from
the endpoint check, discarding the consistency error of a failed check, and
always starts with no recorded error. -/
def FullConsignment.chain_iter (c : FullConsignment) (start_with : NodeId)
    (connected_by : OwnedRightType) : ChainIter :=
  let next_item :=
    match c.endpoint_transition_by_id start_with with
    | .ok _ => (c.transition_witness_by_id start_with).toOption
    | .error _ => none
  { consignment := c, connected_by := connected_by,
    next_item := next_item, error := none }

/-- An assignment is state-settled with respect to a list of exposed seal
concealments when its state payload is already concealed or its seal
concealment is among the exposed ones: exactly the assignments on which a
further conceal_state_except pass performs no operation. -/
def Assignment.stateSettled (ce : List SecretSeal) (a : Assignment) : Prop :=
  (∃ d, a.state = .concealed d) ∨ a.sealRef.commitConceal ∈ ce

/-- All assignments of all owned rights are state-settled. -/
def rightsSettled (ce : List SecretSeal) (rs : OwnedRights) : Prop :=
  ∀ r ∈ rs, ∀ a ∈ r.2, Assignment.stateSettled ce a

/-- Example genesis used in concrete evaluations. -/
def gEx : Genesis := ⟨[1]⟩

/-- Example transition consuming the genesis output. -/
def tEx : Transition :=
  { transition_type := 10,
    parents := [(1, gEx.node_id)],
    owned_rights :=
      [(1, [{ sealRef := .revealed { method := 0, txid := .txid 900, vout := 0, blinding := 5 },
              state := .revealed [42] }])] }

/-- Bundle holding the endpoint transition. -/
def bEx : TransitionBundle := ⟨[(tEx, [0])]⟩

/-- Anchor of the endpoint bundle. -/
def aEx : Anchor := ⟨100, []⟩

/-- Example transition consuming an output of tEx; its bundle is not named
by any endpoint. -/
def uEx : Transition :=
  { transition_type := 11,
    parents := [(1, tEx.node_id)],
    owned_rights := [] }

/-- Bundle holding the non-endpoint transition. -/
def bUEx : TransitionBundle := ⟨[(uEx, [0])]⟩

/-- Anchor of the non-endpoint bundle. -/
def aUEx : Anchor := ⟨101, []⟩

/-- Example consignment: two anchored bundles, the first named by the sole
declared endpoint. -/
def cEx : FullConsignment :=
  { version := 0, schema := [], genesis := gEx,
    endpoints := [(bEx.bundle_id, .concealedUtxo [9])],
    anchored_bundles := [(aEx, bEx), (aUEx, bUEx)],
    state_extensions := [] }

/-- Consignment whose sole endpoint names a bundle id that no anchored
bundle carries: a dangling endpoint reference. -/
def cDang : FullConsignment :=
  { version := 0, schema := [], genesis := gEx,
    endpoints := [([99], .concealedUtxo [1])],
    anchored_bundles := [], state_extensions := [] }

/-- The same consignment with no endpoints at all. -/
def cNoEnds : FullConsignment := { cDang with endpoints := [] }

/-- Trivial fields decoder used to witness decode theorems. -/
def dfEx : FieldsDecoder := fun _ => .ok ([], gEx, [], [], [])

end RgbStd

namespace RgbStd

/-- Claim C5: concealing a TerminalSeal is canonical: conceal on the
ConcealedUtxo variant is the identity on the hash, and concealing the
TerminalSeal obtained from any graph seal gives exactly the concealment of
that graph seal, whichever variant the conversion produced. -/
theorem terminal_seal_conceal_canonical :
    (∀ h : SecretSeal, TerminalSeal.conceal (.concealedUtxo h) = h) ∧
    (∀ g : GraphSeal, (TerminalSeal.fromGraph g).conceal = g.conceal) := by
  refine ⟨fun h => rfl, fun g => ?_⟩
  cases g with
  | mk method txid vout blinding =>
    cases txid with
    | witnessTx => rfl
    | txid t => rfl

/-- Claim C8: parsing a TerminalSeal first attempts the concealed-hash
grammar: whenever that grammar accepts the string, the result is the
ConcealedUtxo variant of the parsed hash, and the revealed grammar has no
influence on the outcome. -/
theorem terminal_seal_from_str_concealed_first
    (pS : String → Except ParseError SecretSeal)
    (pG : String → Except ParseError GraphSeal)
    (s : String) (h : SecretSeal) (hok : pS s = .ok h) :
    TerminalSeal.from_str pS pG s = .ok (.concealedUtxo h) ∧
    (∀ pG2 : String → Except ParseError GraphSeal,
      TerminalSeal.from_str pS pG s = TerminalSeal.from_str pS pG2 s) := by
  constructor
  · simp only [TerminalSeal.from_str, hok]
  · intro pG2
    simp only [TerminalSeal.from_str, hok]

/-- Witness for C8 at a concrete pair of grammars and input string. -/
theorem terminal_seal_from_str_concealed_first_witness :
    TerminalSeal.from_str (fun _ => .ok [5]) (fun _ => .error 0) "x"
      = .ok (.concealedUtxo [5]) ∧
    (∀ pG2 : String → Except ParseError GraphSeal,
      TerminalSeal.from_str (fun _ => .ok [5]) (fun _ => .error 0) "x"
        = TerminalSeal.from_str (fun _ => .ok [5]) pG2 "x") :=
  terminal_seal_from_str_concealed_first
    (fun _ => .ok [5]) (fun _ => .error 0) "x" [5] rfl

/-- Claim C10: when the concealed grammar rejects a string and the revealed
grammar parses it to a graph seal with an explicit txid, the result is the
ConcealedUtxo variant holding the concealment of the parsed seal; the
WitnessVout variant arises only for witness-relative parsed seals. -/
theorem terminal_seal_from_str_explicit_txid_concealed
    (pS : String → Except ParseError SecretSeal)
    (pG : String → Except ParseError GraphSeal)
    (s : String) (e : ParseError) (g : GraphSeal)
    (herr : pS s = .error e) (hok : pG s = .ok g) :
    (∀ t : Txid, g.txid = .txid t →
      TerminalSeal.from_str pS pG s = .ok (.concealedUtxo g.conceal)) ∧
    (g.txid = .witnessTx →
      TerminalSeal.from_str pS pG s
        = .ok (.witnessVout (VoutSeal.with g.method g.vout g.blinding))) := by
  constructor
  · intro t ht
    simp only [TerminalSeal.from_str, herr, hok, TerminalSeal.fromGraph, ht]
  · intro ht
    simp only [TerminalSeal.from_str, herr, hok, TerminalSeal.fromGraph, ht]

/-- Witness for C10 at concrete grammars: the parsed seal carries explicit
txid 7 and the parse result is its concealment. -/
theorem terminal_seal_from_str_explicit_txid_concealed_witness :
    TerminalSeal.from_str (fun _ => .error 0)
      (fun _ => .ok { method := 1, txid := .txid 7, vout := 2, blinding := 3 }) "y"
      = .ok (.concealedUtxo
          (GraphSeal.conceal { method := 1, txid := .txid 7, vout := 2, blinding := 3 })) :=
  (terminal_seal_from_str_explicit_txid_concealed
    (fun _ => .error 0)
    (fun _ => .ok { method := 1, txid := .txid 7, vout := 2, blinding := 3 })
    "y" 0 { method := 1, txid := .txid 7, vout := 2, blinding := 3 }
    rfl rfl).1 7 rfl

end RgbStd

namespace RgbStd

/-- Claim C1, evaluated at the failing input: the endpoint guard of
endpoint_transition_by_id is inverted in the code.  For the consignment cEx,
the transition tEx belongs to the bundle named by the declared endpoint, yet
the function returns the NotEndpoint error for it; and for uEx, which is in
no endpoint bundle, the function succeeds instead of failing. -/
theorem endpoint_transition_guard_inverted :
    cEx.endpoint_transition_by_id tEx.node_id
        = .error (.notEndpoint tEx.node_id) ∧
    cEx.endpoint_transition_by_id uEx.node_id = .ok uEx :=
  ⟨rfl, rfl⟩

/-- Claim C2, evaluated at the failing input: starting the chain iterator at
the non-endpoint node uEx, the iterator yields an item on its first step,
reports no error, and into_result is Ok rather than the NotEndpoint error:
the construction-time consistency error is discarded by chain_iter and the
inverted endpoint guard lets non-endpoint start nodes through. -/
theorem chain_iter_non_endpoint_eval :
    ((cEx.chain_iter uEx.node_id 1).next).1 = some (uEx, 101) ∧
    (cEx.chain_iter uEx.node_id 1).is_err = false ∧
    (cEx.chain_iter uEx.node_id 1).into_result = .ok () :=
  ⟨rfl, rfl, rfl⟩

/-- Counterexample to claim C9: a dangling endpoint reference is not
surfaced as a consistency error value.  The consignment cDang declares one
endpoint whose bundle id resolves to a BundleIdAbsent error, yet
endpoint_bundles silently drops it, returning the same plain list as the
consignment with no endpoints at all; no error value reaches the caller. -/
theorem endpoint_bundles_dangling_counterexample :
    cDang.endpoint_bundles = [] ∧
    cDang.endpoint_bundles = cNoEnds.endpoint_bundles ∧
    cDang.endpoints ≠ [] ∧
    cDang.bundle_by_id [99] = .error (.bundleIdAbsent [99]) :=
  ⟨rfl, rfl, by decide, rfl⟩

/-- Claim C9 as amended: endpoint_bundles totally resolves the declared
endpoint bundle ids, returning exactly those bundles whose id resolves and
silently omitting dangling references; the resolution error of
bundle_by_id is discarded, and no panic is possible (the function is
total). -/
theorem endpoint_bundles_resolved_membership (c : FullConsignment)
    (b : TransitionBundle) :
    b ∈ c.endpoint_bundles ↔
      ∃ id, id ∈ c.endpoint_bundle_ids ∧ c.bundle_by_id id = .ok b := by
  unfold FullConsignment.endpoint_bundles
  rw [List.mem_filterMap]
  constructor
  · rintro ⟨id, hmem, hok⟩
    refine ⟨id, hmem, ?_⟩
    cases h : c.bundle_by_id id with
    | ok v =>
      rw [h] at hok
      simp only [Except.toOption, Option.some.injEq] at hok
      rw [hok]
    | error e =>
      rw [h] at hok
      simp only [Except.toOption] at hok
      exact absurd hok (by simp)
  · rintro ⟨id, hmem, hok⟩
    exact ⟨id, hmem, by rw [hok]; rfl⟩

/-- Witness for the amended C9 at the concrete consignment cEx: the bundle
named by the declared endpoint is a member of endpoint_bundles. -/
theorem endpoint_bundles_resolved_membership_witness :
    bEx ∈ cEx.endpoint_bundles :=
  (endpoint_bundles_resolved_membership cEx bEx).2
    ⟨bEx.bundle_id, by decide, rfl⟩

/-- Claim C4: decoding a consignment whose leading version byte is not 0
always fails with a decode error, whatever the field decoders do, and a
successful decode implies the leading byte was 0 (and the decoded
consignment carries version 0). -/
theorem strict_decode_version_gate (df : FieldsDecoder) (d : List Nat) :
    (∀ v rest, d = v :: rest → v ≠ 0 →
      ∃ e, FullConsignment.strict_decode df d = .error e) ∧
    (∀ c, FullConsignment.strict_decode df d = .ok c →
      d.head? = some 0 ∧ c.version = 0) := by
  constructor
  · intro v rest hd hv
    subst hd
    simp only [FullConsignment.strict_decode]
    split
    · exact ⟨_, rfl⟩
    · exact ⟨_, by rw [if_pos hv]⟩
  · intro c hc
    cases d with
    | nil => simp [FullConsignment.strict_decode] at hc
    | cons v rest =>
      simp only [FullConsignment.strict_decode] at hc
      split at hc
      · exact absurd hc (by simp)
      · split at hc
        · exact absurd hc (by simp)
        · next hv =>
          have hv0 : v = 0 := of_not_not hv
          subst hv0
          cases hc
          exact ⟨rfl, rfl⟩

/-- Witness for C4: at the trivial fields decoder, input with leading byte 1
fails to decode, and input with leading byte 0 decodes to version 0. -/
theorem strict_decode_version_gate_witness :
    (∃ e, FullConsignment.strict_decode dfEx [1] = .error e) ∧
    ([0].head? = some 0 ∧
      (FullConsignment.strict_decode dfEx [0]).toOption.elim 0
        FullConsignment.version = 0) := by
  constructor
  · exact (strict_decode_version_gate dfEx [1]).1 1 [] rfl (by decide)
  · have h := (strict_decode_version_gate dfEx [0]).2
      { version := 0, schema := [], genesis := gEx, endpoints := [],
        anchored_bundles := [], state_extensions := [] } rfl
    exact ⟨h.1, rfl⟩

end RgbStd

namespace RgbStd

/-- The rebuilt collection of a counting map is the plain map of the
transformation. -/
theorem mapCount_fst {α β : Type} (f : α → β × Nat) (l : List α) :
    (mapCount f l).1 = l.map (fun a => (f a).1) := by
  induction l with
  | nil => rfl
  | cons a rest ih => simp only [mapCount, List.map_cons, ih]

/-- A counting map whose transformation performs no operation on any element
reports count 0. -/
theorem mapCount_snd_zero {α β : Type} (f : α → β × Nat) (l : List α)
    (h : ∀ a ∈ l, (f a).2 = 0) : (mapCount f l).2 = 0 := by
  induction l with
  | nil => rfl
  | cons a rest ih =>
    simp only [mapCount]
    rw [h a (List.mem_cons_self a rest), ih (fun x hx => h x (List.mem_cons_of_mem a hx))]

/-- finalize keeps exactly the endpoints of the expose set, in order. -/
theorem finalize_endpoints_eq (c : FullConsignment) (E : List SealEndpoint) :
    (c.finalize E).1.endpoints
      = c.endpoints.filter (fun p => decide (p.2 ∈ E)) := rfl

/-- finalize maps each anchored bundle entry to its anchor, unchanged,
paired with the concealment transform of its own bundle. -/
theorem finalize_anchored_bundles_map (c : FullConsignment) (E : List SealEndpoint) :
    (c.finalize E).1.anchored_bundles
      = c.anchored_bundles.map (fun ab =>
          (ab.1, (concealBundle (E.map SealEndpoint.commit_conceal)
            (((c.endpoints.filter (fun p => decide (p.2 ∉ E))).map (fun p => p.2)).map
              SealEndpoint.commit_conceal) ab.2).1)) := by
  show (mapCount _ c.anchored_bundles).1 = _
  rw [mapCount_fst]

/-- finalize maps each state extension to its state-concealed form. -/
theorem finalize_extensions_eq (c : FullConsignment) (E : List SealEndpoint) :
    (c.finalize E).1.state_extensions
      = c.state_extensions.map (fun ext =>
          (Extension.conceal_state_except (E.map SealEndpoint.commit_conceal) ext).1) := by
  show (mapCount _ c.state_extensions).1 = _
  rw [mapCount_fst]

/-- Claim C3: finalize leaves the number of anchored_bundles entries, their
order, and the pairing of each anchor with (the concealment transform of)
its own bundle unchanged, and leaves endpoints equal to exactly the original
entries whose seal endpoint is in the expose set, in original order. -/
theorem finalize_preserves_structure (c : FullConsignment) (E : List SealEndpoint) :
    ((c.finalize E).1.anchored_bundles.length = c.anchored_bundles.length) ∧
    ((c.finalize E).1.anchored_bundles.map (fun ab => ab.1)
        = c.anchored_bundles.map (fun ab => ab.1)) ∧
    ((c.finalize E).1.anchored_bundles
        = c.anchored_bundles.map (fun ab =>
            (ab.1, (concealBundle (E.map SealEndpoint.commit_conceal)
              (((c.endpoints.filter (fun p => decide (p.2 ∉ E))).map (fun p => p.2)).map
                SealEndpoint.commit_conceal) ab.2).1))) ∧
    ((c.finalize E).1.endpoints = c.endpoints.filter (fun p => decide (p.2 ∈ E))) := by
  refine ⟨?_, ?_, finalize_anchored_bundles_map c E, finalize_endpoints_eq c E⟩
  · rw [finalize_anchored_bundles_map c E, List.length_map]
  · rw [finalize_anchored_bundles_map c E, List.map_map]
    rfl

/-- Claim C7: reveal_seals never fails (it is a total function returning a
count), modifies neither version, schema, genesis nor endpoints, keeps every
anchor in place, and leaves any concealed assignment seal with no matching
known seal unchanged. -/
theorem reveal_seals_frame (c : FullConsignment) (ks : List GraphSeal) :
    ((c.reveal_seals ks).1.version = c.version ∧
     (c.reveal_seals ks).1.schema = c.schema ∧
     (c.reveal_seals ks).1.genesis = c.genesis ∧
     (c.reveal_seals ks).1.endpoints = c.endpoints ∧
     (c.reveal_seals ks).1.anchored_bundles.map (fun ab => ab.1)
        = c.anchored_bundles.map (fun ab => ab.1)) ∧
    (∀ a : Assignment, ∀ s : SecretSeal, a.sealRef = .concealed s →
      (∀ k ∈ ks, k.conceal ≠ s) → Assignment.revealSeals ks a = (a, 0)) := by
  constructor
  · refine ⟨rfl, rfl, rfl, rfl, ?_⟩
    show ((mapCount _ c.anchored_bundles).1).map _ = _
    rw [mapCount_fst, List.map_map]
    rfl
  · intro a s ha hk
    have hnone : ks.find? (fun k => decide (k.conceal = s)) = none := by
      rw [List.find?_eq_none]
      intro k hkmem
      simp only [decide_eq_true_eq]
      exact hk k hkmem
    obtain ⟨sr, st⟩ := a
    simp only at ha
    subst ha
    simp only [Assignment.revealSeals, hnone]

/-- Witness for C7 at a concrete consignment, known-seal list and concealed
assignment with no matching known seal. -/
theorem reveal_seals_frame_witness :
    (cEx.reveal_seals []).1.endpoints = cEx.endpoints ∧
    Assignment.revealSeals []
        { sealRef := .concealed [3], state := .revealed [] }
      = ({ sealRef := .concealed [3], state := .revealed [] }, 0) := by
  have h := reveal_seals_frame cEx []
  exact ⟨h.1.2.2.2.1,
    h.2 { sealRef := .concealed [3], state := .revealed [] } [3] rfl
      (fun k hk => absurd hk (List.not_mem_nil k))⟩

end RgbStd

namespace RgbStd

/-- A state-concealment pass leaves every assignment state-settled. -/
theorem stateSettled_concealStateExcept (ce : List SecretSeal) (a : Assignment) :
    Assignment.stateSettled ce (Assignment.concealStateExcept ce a).1 := by
  obtain ⟨sr, st⟩ := a
  cases st with
  | concealed d => exact Or.inl ⟨d, rfl⟩
  | revealed d =>
    simp only [Assignment.concealStateExcept]
    by_cases h : SealRef.commitConceal sr ∈ ce
    · rw [if_pos h]
      exact Or.inr h
    · rw [if_neg h]
      exact Or.inl ⟨stateCommitment d, rfl⟩

/-- Seal blinding preserves state-settledness: it never touches the state
payload and the concealed form of the seal reference is unchanged. -/
theorem stateSettled_concealSealIn (ce sc : List SecretSeal) (a : Assignment)
    (h : Assignment.stateSettled ce a) :
    Assignment.stateSettled ce (Assignment.concealSealIn sc a).1 := by
  obtain ⟨sr, st⟩ := a
  cases sr with
  | concealed s => exact h
  | revealed g =>
    simp only [Assignment.concealSealIn]
    by_cases hg : GraphSeal.conceal g ∈ sc
    · rw [if_pos hg]
      rcases h with ⟨d, hd⟩ | hmem
      · exact Or.inl ⟨d, hd⟩
      · exact Or.inr hmem
    · rw [if_neg hg]
      exact h

/-- A state-concealment pass is a counted no-op on a settled assignment. -/
theorem concealStateExcept_of_settled (ce : List SecretSeal) (a : Assignment)
    (h : Assignment.stateSettled ce a) :
    Assignment.concealStateExcept ce a = (a, 0) := by
  obtain ⟨sr, st⟩ := a
  cases st with
  | concealed d => rfl
  | revealed d =>
    rcases h with ⟨d0, hd0⟩ | hmem
    · simp at hd0
    · simp only [Assignment.concealStateExcept]
      rw [if_pos hmem]

/-- Blinding against the empty seal list is a counted no-op. -/
theorem concealSealIn_nil (a : Assignment) :
    Assignment.concealSealIn [] a = (a, 0) := by
  obtain ⟨sr, st⟩ := a
  cases sr with
  | concealed s => rfl
  | revealed g =>
    simp only [Assignment.concealSealIn]
    rw [if_neg (List.not_mem_nil (GraphSeal.conceal g))]

/-- Shape of the owned-rights state-concealment pass. -/
theorem concealStateExceptRights_fst (ce : List SecretSeal) (rs : OwnedRights) :
    (concealStateExceptRights ce rs).1
      = rs.map (fun r =>
          (r.1, (mapCount (Assignment.concealStateExcept ce) r.2).1)) := by
  show (mapCount _ rs).1 = _
  rw [mapCount_fst]

/-- Shape of the owned-rights seal-blinding pass. -/
theorem concealSealsRights_fst (sc : List SecretSeal) (rs : OwnedRights) :
    (concealSealsRights sc rs).1
      = rs.map (fun r =>
          (r.1, (mapCount (Assignment.concealSealIn sc) r.2).1)) := by
  show (mapCount _ rs).1 = _
  rw [mapCount_fst]

/-- After a state-concealment pass all owned rights are settled. -/
theorem rightsSettled_concealStateExceptRights (ce : List SecretSeal)
    (rs : OwnedRights) :
    rightsSettled ce (concealStateExceptRights ce rs).1 := by
  intro r hr a ha
  rw [concealStateExceptRights_fst] at hr
  obtain ⟨r0, hr0, heq⟩ := List.mem_map.mp hr
  subst heq
  simp only at ha
  rw [mapCount_fst] at ha
  obtain ⟨a0, ha0, heqa⟩ := List.mem_map.mp ha
  subst heqa
  exact stateSettled_concealStateExcept ce a0

/-- The seal-blinding pass preserves settledness of all owned rights. -/
theorem rightsSettled_concealSealsRights (ce sc : List SecretSeal)
    (rs : OwnedRights) (h : rightsSettled ce rs) :
    rightsSettled ce (concealSealsRights sc rs).1 := by
  intro r hr a ha
  rw [concealSealsRights_fst] at hr
  obtain ⟨r0, hr0, heq⟩ := List.mem_map.mp hr
  subst heq
  simp only at ha
  rw [mapCount_fst] at ha
  obtain ⟨a0, ha0, heqa⟩ := List.mem_map.mp ha
  subst heqa
  exact stateSettled_concealSealIn ce sc a0 (h r0 hr0 a0 ha0)

/-- The state-concealment pass counts 0 on settled owned rights. -/
theorem concealStateExceptRights_zero (ce : List SecretSeal) (rs : OwnedRights)
    (h : rightsSettled ce rs) :
    (concealStateExceptRights ce rs).2 = 0 := by
  apply mapCount_snd_zero
  intro r hr
  show (mapCount (Assignment.concealStateExcept ce) r.2).2 = 0
  apply mapCount_snd_zero
  intro a ha
  show (Assignment.concealStateExcept ce a).2 = 0
  rw [concealStateExcept_of_settled ce a (h r hr a ha)]

/-- The seal-blinding pass against the empty list counts 0. -/
theorem concealSealsRights_nil_zero (rs : OwnedRights) :
    (concealSealsRights [] rs).2 = 0 := by
  apply mapCount_snd_zero
  intro r hr
  show (mapCount (Assignment.concealSealIn []) r.2).2 = 0
  apply mapCount_snd_zero
  intro a ha
  show (Assignment.concealSealIn [] a).2 = 0
  rw [concealSealIn_nil]

/-- Every member of an ordered bundle insertion is the inserted entry or a
member of the original list. -/
theorem mem_bundleInsert (p x : BundleEntry) (l : List BundleEntry)
    (h : x ∈ bundleInsert p l) : x = p ∨ x ∈ l := by
  induction l with
  | nil =>
    simp only [bundleInsert] at h
    exact Or.inl (List.mem_singleton.mp h)
  | cons q rest ih =>
    simp only [bundleInsert] at h
    split at h
    · rcases List.mem_cons.mp h with h1 | h2
      · exact Or.inl h1
      · exact Or.inr h2
    · split at h
      · rcases List.mem_cons.mp h with h1 | h2
        · exact Or.inr (by rw [h1]; exact List.mem_cons_self q rest)
        · rcases ih h2 with h3 | h4
          · exact Or.inl h3
          · exact Or.inr (List.mem_cons_of_mem q h4)
      · rcases List.mem_cons.mp h with h1 | h2
        · exact Or.inl h1
        · exact Or.inr (List.mem_cons_of_mem q h2)

/-- Members of the BTreeMap-style fold come from the accumulator or the
inserted entries. -/
theorem mem_bundleCollect_aux (l : List BundleEntry) (acc : List BundleEntry)
    (x : BundleEntry)
    (h : x ∈ List.foldl (fun acc e => bundleInsert e acc) acc l) :
    x ∈ acc ∨ x ∈ l := by
  induction l generalizing acc with
  | nil => exact Or.inl h
  | cons e rest ih =>
    rw [List.foldl_cons] at h
    rcases ih (bundleInsert e acc) h with hacc | hrest
    · rcases mem_bundleInsert e x acc hacc with h1 | h2
      · exact Or.inr (by rw [h1]; exact List.mem_cons_self e rest)
      · exact Or.inl h2
    · exact Or.inr (List.mem_cons_of_mem e hrest)

/-- BTreeMap collection never invents entries: every member of the collected
map is one of the collected entries. -/
theorem mem_bundleCollect (l : List BundleEntry) (x : BundleEntry)
    (h : x ∈ bundleCollect l) : x ∈ l := by
  rcases mem_bundleCollect_aux l [] x h with h1 | h2
  · exact absurd h1 (List.not_mem_nil x)
  · exact h2

/-- After state concealment followed by seal blinding, every owned right of
the transition is settled. -/
theorem transition_conceal_settled (ce sc : List SecretSeal) (t : Transition) :
    rightsSettled ce
      (((t.conceal_state_except ce).1.conceal_seals sc).1).owned_rights := by
  show rightsSettled ce
    (concealSealsRights sc (concealStateExceptRights ce t.owned_rights).1).1
  exact rightsSettled_concealSealsRights ce sc _
    (rightsSettled_concealStateExceptRights ce t.owned_rights)

/-- On a settled transition, the state-concealment pass and the empty-list
seal pass both count 0. -/
theorem transition_conceal_zero (ce : List SecretSeal) (t : Transition)
    (h : rightsSettled ce t.owned_rights) :
    (t.conceal_state_except ce).2 = 0 ∧
    ((t.conceal_state_except ce).1.conceal_seals []).2 = 0 := by
  constructor
  · show (concealStateExceptRights ce t.owned_rights).2 = 0
    exact concealStateExceptRights_zero ce t.owned_rights h
  · show (concealSealsRights []
      (concealStateExceptRights ce t.owned_rights).1).2 = 0
    exact concealSealsRights_nil_zero _

/-- Every transition of a concealed bundle is settled. -/
theorem concealBundle_entries_settled (ce sc : List SecretSeal)
    (b : TransitionBundle) :
    ∀ e ∈ ((concealBundle ce sc b).1).entries,
      rightsSettled ce e.1.owned_rights := by
  intro e he
  have he2 := mem_bundleCollect _ e he
  rw [mapCount_fst] at he2
  obtain ⟨e0, he0, heq⟩ := List.mem_map.mp he2
  subst heq
  show rightsSettled ce
    (((e0.1.conceal_state_except ce).1.conceal_seals sc).1).owned_rights
  exact transition_conceal_settled ce sc e0.1

/-- On a bundle whose transitions are all settled, a further concealment
pass with no seals to blind counts 0. -/
theorem concealBundle_nil_zero (ce : List SecretSeal) (b : TransitionBundle)
    (h : ∀ e ∈ b.entries, rightsSettled ce e.1.owned_rights) :
    (concealBundle ce [] b).2 = 0 := by
  show (mapCount _ b.entries).2 = 0
  apply mapCount_snd_zero
  intro e he
  show (e.1.conceal_state_except ce).2
    + ((e.1.conceal_state_except ce).1.conceal_seals []).2 = 0
  have hz := transition_conceal_zero ce e.1 (h e he)
  rw [hz.1, hz.2]

/-- Every owned right of a state-concealed extension is settled. -/
theorem extension_conceal_settled (ce : List SecretSeal) (ext : Extension) :
    rightsSettled ce ((Extension.conceal_state_except ce ext).1).owned_rights := by
  show rightsSettled ce (concealStateExceptRights ce ext.owned_rights).1
  exact rightsSettled_concealStateExceptRights ce ext.owned_rights

/-- On a settled extension the state-concealment pass counts 0. -/
theorem extension_conceal_zero (ce : List SecretSeal) (ext : Extension)
    (h : rightsSettled ce ext.owned_rights) :
    (Extension.conceal_state_except ce ext).2 = 0 := by
  show (concealStateExceptRights ce ext.owned_rights).2 = 0
  exact concealStateExceptRights_zero ce ext.owned_rights h

/-- finalize counts 0 on a consignment whose endpoints are all exposed and
whose transitions and extensions are already settled. -/
theorem finalize_count_zero (c : FullConsignment) (E : List SealEndpoint)
    (hend : ∀ p ∈ c.endpoints, p.2 ∈ E)
    (hb : ∀ ab ∈ c.anchored_bundles, ∀ e ∈ ab.2.entries,
        rightsSettled (E.map SealEndpoint.commit_conceal) e.1.owned_rights)
    (hx : ∀ ext ∈ c.state_extensions,
        rightsSettled (E.map SealEndpoint.commit_conceal) ext.owned_rights) :
    (c.finalize E).2 = 0 := by
  have hrem : c.endpoints.filter (fun p => decide (p.2 ∉ E)) = [] := by
    rw [List.filter_eq_nil_iff]
    intro p hp
    simp only [decide_eq_true_eq]
    exact fun hno => hno (hend p hp)
  have hgoal : (c.finalize E).2
      = (mapCount (fun ab : Anchor × TransitionBundle =>
          let q := concealBundle (E.map SealEndpoint.commit_conceal)
            (((c.endpoints.filter (fun p => decide (p.2 ∉ E))).map (fun p => p.2)).map
              SealEndpoint.commit_conceal) ab.2
          ((ab.1, q.1), q.2)) c.anchored_bundles).2
        + (mapCount (Extension.conceal_state_except
            (E.map SealEndpoint.commit_conceal)) c.state_extensions).2 := rfl
  rw [hgoal, hrem]
  simp only [List.map_nil]
  rw [Nat.add_eq_zero_iff]
  constructor
  · apply mapCount_snd_zero
    intro ab hab
    show (concealBundle (E.map SealEndpoint.commit_conceal) [] ab.2).2 = 0
    exact concealBundle_nil_zero _ ab.2 (hb ab hab)
  · apply mapCount_snd_zero
    intro ext hext
    exact extension_conceal_zero _ ext (hx ext hext)

/-- Claim C6: finalize is idempotent in its effect count: running finalize
once and then running it again with the same expose set performs no further
concealment operations, so the second run returns count 0. -/
theorem finalize_second_run_zero (c : FullConsignment) (E : List SealEndpoint) :
    ((c.finalize E).1.finalize E).2 = 0 := by
  apply finalize_count_zero
  · rw [finalize_endpoints_eq]
    intro p hp
    have := List.mem_filter.mp hp
    exact of_decide_eq_true this.2
  · rw [finalize_anchored_bundles_map]
    intro ab hab e he
    obtain ⟨ab0, hab0, heq⟩ := List.mem_map.mp hab
    subst heq
    simp only at he
    exact concealBundle_entries_settled _ _ ab0.2 e he
  · rw [finalize_extensions_eq]
    intro ext hext
    obtain ⟨e0, he0, heq⟩ := List.mem_map.mp hext
    subst heq
    exact extension_conceal_settled _ e0

end RgbStd
